import Mathlib

/-!
Shallow embedding of the btsnoop capture-file decoder (src/lib.rs, src/hci.rs).

A byte source (`std::io::Read` over a finite stream) is modelled as a
`List ℕ` of bytes; every parsing function takes the remaining input and
returns, on success, the parsed value together with the rest of the input.
`io::Error` values are modelled by `IOErr`: `read_exact` / `read_u32` /
`read_i64` on an exhausted source give `unexpectedEof`
(`io::ErrorKind::UnexpectedEof`), and `io::Error::new(InvalidData, msg)`
becomes `invalidData msg`.  A Rust panic (an `unwrap` failure or an
out-of-bounds slice) has no error value to return, so functions that can
panic return an `Option`, with `none` for the panic.
-/

/-- Model of `std::io::Error` as used by this crate: either an
end-of-source failure or an invalid-data failure with its message. -/
inductive IOErr where
  | unexpectedEof
  | invalidData (msg : String)
deriving DecidableEq

/-- Big-endian value of a byte list (`byteorder::BigEndian`):
fold each byte into the accumulator, most significant first. -/
def beVal (b : List ℕ) : ℕ := b.foldl (fun a x => a * 256 + x) 0

/-- Little-endian 16-bit value of two bytes (`byteorder::LittleEndian`). -/
def u16le (b0 b1 : ℕ) : ℕ := b0 + 256 * b1

/-- Two's-complement reading of a 64-bit big-endian unsigned value as `i64`. -/
def i64ofBe (n : ℕ) : ℤ := if n < 2 ^ 63 then (n : ℤ) else (n : ℤ) - 2 ^ 64

/-- `reader.read_exact` on an `n`-byte buffer: yields the first `n` bytes and
the rest of the source, or `UnexpectedEof` when fewer than `n` remain. -/
def readExact (n : ℕ) (s : List ℕ) : Except IOErr (List ℕ × List ℕ) :=
  if n ≤ s.length then .ok (s.take n, s.drop n) else .error .unexpectedEof

/-- `reader.read_u32::<BigEndian>()`. -/
def readU32be (s : List ℕ) : Except IOErr (ℕ × List ℕ) :=
  match readExact 4 s with
  | .error e => .error e
  | .ok (b, r) => .ok (beVal b, r)

/-- `reader.read_i64::<BigEndian>()`. -/
def readI64be (s : List ℕ) : Except IOErr (ℤ × List ℕ) :=
  match readExact 8 s with
  | .error e => .error e
  | .ok (b, r) => .ok (i64ofBe (beVal b), r)

/-- `IdentificationPattern::IDENTIFICATION_PATTERN`:
the ASCII bytes of "btsnoop" followed by one null octet. -/
def IDENTIFICATION_PATTERN : List ℕ := [0x62, 0x74, 0x73, 0x6E, 0x6F, 0x6F, 0x70, 0x00]

/-- `TryFrom<[u8; 8]> for IdentificationPattern` (src/lib.rs:190-203):
succeed exactly on the magic constant, otherwise an `InvalidData` error. -/
def idPatternTryFrom (value : List ℕ) : Except IOErr Unit :=
  if value = IDENTIFICATION_PATTERN then .ok ()
  else .error (.invalidData "Invalid identification pattern")

/-- `enum DatalinkType` (src/lib.rs:56-68). -/
inductive DatalinkType where
  | Reserved (raw : ℕ)
  | UnencapsulatedHci
  | Uart
  | Bscp
  | Serial
  | Unassigned (raw : ℕ)
deriving DecidableEq

/-- `From<u32> for DatalinkType` (src/lib.rs:205-216): the range match on
the raw code. -/
def DatalinkType.ofU32 (value : ℕ) : DatalinkType :=
  if value ≤ 1000 then .Reserved value
  else if value = 1001 then .UnencapsulatedHci
  else if value = 1002 then .Uart
  else if value = 1003 then .Bscp
  else if value = 1004 then .Serial
  else .Unassigned value

/-- `struct Header` (src/lib.rs:40-46).  `IdentificationPattern` is a
zero-sized marker type validated during parsing, so it carries no field
here. -/
structure Header where
  version : ℕ
  datalink_type : DatalinkType
deriving DecidableEq

/-- `Header::parse` (src/lib.rs:159-172): read the 8 magic bytes and
validate them, then the big-endian version and raw datalink-type words. -/
def Header.parse (s : List ℕ) : Except IOErr (Header × List ℕ) :=
  match readExact 8 s with
  | .error e => .error e
  | .ok (id_pat, s1) =>
    match idPatternTryFrom id_pat with
    | .error e => .error e
    | .ok () =>
      match readU32be s1 with
      | .error e => .error e
      | .ok (version, s2) =>
        match readU32be s2 with
        | .error e => .error e
        | .ok (dlt, s3) =>
          .ok ({ version := version, datalink_type := DatalinkType.ofU32 dlt }, s3)

/-- `struct PacketFlags(pub u32)` (src/lib.rs:122-123). -/
structure PacketFlags where
  raw : ℕ
deriving DecidableEq

/-- `struct PacketDescription` (src/lib.rs:100-111). -/
structure PacketDescription where
  original_length : ℕ
  included_length : ℕ
  flags : PacketFlags
  cumulative_drops : ℕ
  timestamp : ℤ
deriving DecidableEq

/-- `struct Packet` (src/lib.rs:94-98); `PacketData` is a plain byte
vector, kept inline as a list. -/
structure Packet where
  description : PacketDescription
  data : List ℕ
deriving DecidableEq

/-- `PacketDescription::parse` (src/lib.rs:231-245): five fixed big-endian
reads, 24 bytes in all. -/
def PacketDescription.parse (s : List ℕ) : Except IOErr (PacketDescription × List ℕ) :=
  match readU32be s with
  | .error e => .error e
  | .ok (original_length, s1) =>
    match readU32be s1 with
    | .error e => .error e
    | .ok (included_length, s2) =>
      match readU32be s2 with
      | .error e => .error e
      | .ok (flags, s3) =>
        match readU32be s3 with
        | .error e => .error e
        | .ok (cumulative_drops, s4) =>
          match readI64be s4 with
          | .error e => .error e
          | .ok (timestamp, s5) =>
            .ok ({ original_length := original_length,
                   included_length := included_length,
                   flags := ⟨flags⟩,
                   cumulative_drops := cumulative_drops,
                   timestamp := timestamp }, s5)

/-- `Packet::parse` (src/lib.rs:219-227): the description block, then
exactly `included_length` bytes of data. -/
def Packet.parse (s : List ℕ) : Except IOErr (Packet × List ℕ) :=
  match PacketDescription.parse s with
  | .error e => .error e
  | .ok (description, s1) =>
    match readExact description.included_length s1 with
    | .error e => .error e
    | .ok (data, s2) => .ok ({ description := description, data := data }, s2)

/-! Basic inversion lemmas for the primitive readers, used both to justify
termination of the record loop and to characterise the parsers. -/

theorem readExact_ok {n : ℕ} {s b r : List ℕ} (h : readExact n s = .ok (b, r)) :
    n ≤ s.length ∧ b = s.take n ∧ r = s.drop n := by
  unfold readExact at h
  split at h
  · exact ⟨by assumption, by injection h with h; injection h with h1 h2; exact h1.symm,
      by injection h with h; injection h with h1 h2; exact h2.symm⟩
  · exact absurd h (by simp)

theorem readExact_of_le {n : ℕ} {s : List ℕ} (h : n ≤ s.length) :
    readExact n s = .ok (s.take n, s.drop n) := by
  unfold readExact
  simp [h]

theorem readU32be_ok {s : List ℕ} {v : ℕ} {r : List ℕ} (h : readU32be s = .ok (v, r)) :
    4 ≤ s.length ∧ v = beVal (s.take 4) ∧ r = s.drop 4 := by
  unfold readU32be at h
  cases hre : readExact 4 s with
  | error e => simp [hre] at h
  | ok br =>
    obtain ⟨b, r0⟩ := br
    obtain ⟨hn, hb, hr⟩ := readExact_ok hre
    simp only [hre] at h
    injection h with h
    injection h with h1 h2
    exact ⟨hn, by rw [← h1, hb], by rw [← h2, hr]⟩

theorem readI64be_ok {s : List ℕ} {v : ℤ} {r : List ℕ} (h : readI64be s = .ok (v, r)) :
    8 ≤ s.length ∧ v = i64ofBe (beVal (s.take 8)) ∧ r = s.drop 8 := by
  unfold readI64be at h
  cases hre : readExact 8 s with
  | error e => simp [hre] at h
  | ok br =>
    obtain ⟨b, r0⟩ := br
    obtain ⟨hn, hb, hr⟩ := readExact_ok hre
    simp only [hre] at h
    injection h with h
    injection h with h1 h2
    exact ⟨hn, by rw [← h1, hb], by rw [← h2, hr]⟩

/-- Successful description parsing consumes exactly 24 bytes and fills each
field with the big-endian value of its slot. -/
theorem descParse_ok {s : List ℕ} {d : PacketDescription} {r : List ℕ}
    (h : PacketDescription.parse s = .ok (d, r)) :
    24 ≤ s.length ∧
    d.original_length = beVal (s.take 4) ∧
    d.included_length = beVal ((s.drop 4).take 4) ∧
    d.flags.raw = beVal ((s.drop 8).take 4) ∧
    d.cumulative_drops = beVal ((s.drop 12).take 4) ∧
    d.timestamp = i64ofBe (beVal ((s.drop 16).take 8)) ∧
    r = s.drop 24 := by
  unfold PacketDescription.parse at h
  cases h1 : readU32be s with
  | error e => simp [h1] at h
  | ok vr1 =>
  obtain ⟨v1, s1⟩ := vr1
  simp only [h1] at h
  obtain ⟨hl1, hv1, hr1⟩ := readU32be_ok h1
  cases h2 : readU32be s1 with
  | error e => simp [h2] at h
  | ok vr2 =>
  obtain ⟨v2, s2⟩ := vr2
  simp only [h2] at h
  obtain ⟨hl2, hv2, hr2⟩ := readU32be_ok h2
  cases h3 : readU32be s2 with
  | error e => simp [h3] at h
  | ok vr3 =>
  obtain ⟨v3, s3⟩ := vr3
  simp only [h3] at h
  obtain ⟨hl3, hv3, hr3⟩ := readU32be_ok h3
  cases h4 : readU32be s3 with
  | error e => simp [h4] at h
  | ok vr4 =>
  obtain ⟨v4, s4⟩ := vr4
  simp only [h4] at h
  obtain ⟨hl4, hv4, hr4⟩ := readU32be_ok h4
  cases h5 : readI64be s4 with
  | error e => simp [h5] at h
  | ok vr5 =>
  obtain ⟨v5, s5⟩ := vr5
  simp only [h5] at h
  obtain ⟨hl5, hv5, hr5⟩ := readI64be_ok h5
  injection h with h
  injection h with hd hr
  subst hd hr hr1 hr2 hr3 hr4
  simp only [List.drop_drop] at hl2 hl3 hl4 hl5 hv2 hv3 hv4 hv5 hr5 ⊢
  simp only [List.length_drop] at hl1 hl2 hl3 hl4 hl5
  refine ⟨by omega, hv1, hv2, hv3, hv4, hv5, hr5⟩

/-- Successful record parsing consumes exactly `24 + included_length` bytes;
the data buffer is that slice and its length is `included_length`. -/
theorem packetParse_ok {s : List ℕ} {p : Packet} {r : List ℕ}
    (h : Packet.parse s = .ok (p, r)) :
    24 + p.description.included_length ≤ s.length ∧
    PacketDescription.parse s = .ok (p.description, s.drop 24) ∧
    p.data = (s.drop 24).take p.description.included_length ∧
    p.data.length = p.description.included_length ∧
    r = s.drop (24 + p.description.included_length) := by
  unfold Packet.parse at h
  cases h1 : PacketDescription.parse s with
  | error e => simp [h1] at h
  | ok dr =>
  obtain ⟨d, s1⟩ := dr
  simp only [h1] at h
  obtain ⟨hl1, _, _, _, _, _, hr1⟩ := descParse_ok h1
  cases h2 : readExact d.included_length s1 with
  | error e => simp [h2] at h
  | ok br =>
  obtain ⟨b, s2⟩ := br
  simp only [h2] at h
  obtain ⟨hl2, hb, hr2⟩ := readExact_ok h2
  injection h with h
  injection h with hp hr
  subst hp hr hr1 hr2
  refine ⟨?_, ?_, ?_, ?_, ?_⟩
  · show 24 + d.included_length ≤ s.length
    simp only [List.length_drop] at hl2
    omega
  · exact h1.symm.trans h1
  · show b = (s.drop 24).take d.included_length
    exact hb
  · show b.length = d.included_length
    rw [hb]
    simp only [List.length_take, List.length_drop]
    simp only [List.length_drop] at hl2
    omega
  · show (s.drop 24).drop d.included_length = s.drop (24 + d.included_length)
    rw [List.drop_drop, Nat.add_comm]

theorem readExact_error {n : ℕ} {s : List ℕ} {e : IOErr}
    (h : readExact n s = .error e) : e = .unexpectedEof := by
  unfold readExact at h
  split at h
  · exact absurd h (by simp)
  · injection h with h
    exact h.symm

theorem readU32be_error {s : List ℕ} {e : IOErr}
    (h : readU32be s = .error e) : e = .unexpectedEof := by
  unfold readU32be at h
  cases h1 : readExact 4 s with
  | error e1 =>
    rw [h1] at h
    injection h with h
    rw [← h]
    exact readExact_error h1
  | ok br => rw [h1] at h; exact absurd h (by simp)

theorem readI64be_error {s : List ℕ} {e : IOErr}
    (h : readI64be s = .error e) : e = .unexpectedEof := by
  unfold readI64be at h
  cases h1 : readExact 8 s with
  | error e1 =>
    rw [h1] at h
    injection h with h
    rw [← h]
    exact readExact_error h1
  | ok br => rw [h1] at h; exact absurd h (by simp)

theorem PacketDescription.parse_error {s : List ℕ} {e : IOErr}
    (h : PacketDescription.parse s = .error e) : e = .unexpectedEof := by
  unfold PacketDescription.parse at h
  cases h1 : readU32be s with
  | error e1 =>
    simp only [h1] at h; injection h with h; rw [← h]; exact readU32be_error h1
  | ok vr1 =>
  obtain ⟨v1, s1⟩ := vr1
  simp only [h1] at h
  cases h2 : readU32be s1 with
  | error e2 =>
    simp only [h2] at h; injection h with h; rw [← h]; exact readU32be_error h2
  | ok vr2 =>
  obtain ⟨v2, s2⟩ := vr2
  simp only [h2] at h
  cases h3 : readU32be s2 with
  | error e3 =>
    simp only [h3] at h; injection h with h; rw [← h]; exact readU32be_error h3
  | ok vr3 =>
  obtain ⟨v3, s3⟩ := vr3
  simp only [h3] at h
  cases h4 : readU32be s3 with
  | error e4 =>
    simp only [h4] at h; injection h with h; rw [← h]; exact readU32be_error h4
  | ok vr4 =>
  obtain ⟨v4, s4⟩ := vr4
  simp only [h4] at h
  cases h5 : readI64be s4 with
  | error e5 =>
    simp only [h5] at h; injection h with h; rw [← h]; exact readI64be_error h5
  | ok vr5 =>
    obtain ⟨v5, s5⟩ := vr5
    simp [h5] at h

/-- A record parse that fails, fails with end-of-source: every fallible step
of `Packet::parse` is a fixed-size or length-prefixed read. -/
theorem Packet.parse_error_eof {s : List ℕ} {e : IOErr}
    (h : Packet.parse s = .error e) : e = .unexpectedEof := by
  unfold Packet.parse at h
  cases h1 : PacketDescription.parse s with
  | error e1 =>
    simp only [h1] at h; injection h with h; rw [← h]; exact PacketDescription.parse_error h1
  | ok dr =>
  obtain ⟨d, s1⟩ := dr
  simp only [h1] at h
  cases h2 : readExact d.included_length s1 with
  | error e2 =>
    simp only [h2] at h; injection h with h; rw [← h]; exact readExact_error h2
  | ok br =>
    obtain ⟨b, s2⟩ := br
    simp [h2] at h

theorem Packet.parse_consumes {s : List ℕ} {p : Packet} {r : List ℕ}
    (h : Packet.parse s = .ok (p, r)) : r.length < s.length := by
  obtain ⟨hle, _, _, _, hr⟩ := packetParse_ok h
  subst hr
  simp
  omega

/-- `struct Btsnoop` (src/lib.rs:25-29). -/
structure Btsnoop where
  header : Header
  packets : List Packet
deriving DecidableEq

/-- The record loop of `Btsnoop::parse` (src/lib.rs:145-152): parse one
record and append; stop with success on `UnexpectedEof`; surface any other
error.  Terminates because a successful record parse consumes at least the
24-byte description block. -/
def parseRecords (s : List ℕ) : Except IOErr (List Packet) :=
  match h : Packet.parse s with
  | .ok (p, rest) =>
    match parseRecords rest with
    | .ok ps => .ok (p :: ps)
    | .error e => .error e
  | .error .unexpectedEof => .ok []
  | .error e => .error e
termination_by s.length
decreasing_by exact Packet.parse_consumes h

/-- `Btsnoop::parse` (src/lib.rs:142-155): header first, then the record
loop. -/
def Btsnoop.parse (s : List ℕ) : Except IOErr Btsnoop :=
  match Header.parse s with
  | .error e => .error e
  | .ok (header, s1) =>
    match parseRecords s1 with
    | .ok packets => .ok { header := header, packets := packets }
    | .error e => .error e

/-! The embedded HCI layer (src/hci.rs). -/

/-- `struct Opcode(u16)` (src/hci.rs:56-57). -/
structure Opcode where
  val : ℕ
deriving DecidableEq

/-- `Opcode::ocf` (src/hci.rs:66-68): the low 10 bits. -/
def Opcode.ocf (o : Opcode) : ℕ := o.val &&& 0x3FF

/-- `Opcode::ogf` (src/hci.rs:70-72): the high bits shifted down, then the
`as u8` cast. -/
def Opcode.ogf (o : Opcode) : ℕ := (o.val >>> 10) % 256

/-- `struct Command` (src/hci.rs:27-34).  The borrowed parameter slice is
modelled by the list of bytes it views. -/
structure Command where
  opcode : Opcode
  params_len : ℕ
  params : List ℕ
deriving DecidableEq

/-- `Command::from` (src/hci.rs:39-50).  The Rust function returns `Self`
and `unwrap`s its two reads, so a buffer shorter than 3 bytes makes it
panic; the panic is modelled as `none`.  On success it returns the command
together with the final contents of the `&mut` buffer, which the function
never writes to.  `params` is `&data[3..]`, the whole tail of the buffer. -/
def Command.fromData (data : List ℕ) : Option (Command × List ℕ) :=
  match data with
  | b0 :: b1 :: b2 :: rest =>
    some ({ opcode := ⟨u16le b0 b1⟩, params_len := b2, params := rest }, b0 :: b1 :: b2 :: rest)
  | _ => none

/-- `enum DirectionFlag` (src/lib.rs:125-129). -/
inductive DirectionFlag where
  | Sent
  | Received
deriving DecidableEq

/-- `enum CommandFlag` (src/lib.rs:135-139). -/
inductive CommandFlag where
  | Data
  | CommandOrEvnet
deriving DecidableEq

/-- `TryFrom<u8> for DirectionFlag` (src/lib.rs:248-261): match on
`value & 1`, with an (unreachable) invalid-data branch. -/
def DirectionFlag.tryFrom (value : ℕ) : Except IOErr DirectionFlag :=
  match value &&& 1 with
  | 0 => .ok .Sent
  | 1 => .ok .Received
  | _ => .error (.invalidData "invalid direction flag")

/-- `TryFrom<u8> for CommandFlag` (src/lib.rs:263-276): match on
`(value >> 1) & 1`, with an (unreachable) invalid-data branch. -/
def CommandFlag.tryFrom (value : ℕ) : Except IOErr CommandFlag :=
  match (value >>> 1) &&& 1 with
  | 0 => .ok .Data
  | 1 => .ok .CommandOrEvnet
  | _ => .error (.invalidData "invalid command flag")

/-- `enum UartPacketType` (src/lib.rs:278-286). -/
inductive UartPacketType where
  | Cmd
  | Acl
  | Sco
  | Evt
  | Iso
deriving DecidableEq

/-- `UartPacketType::try_from_primitive`: the discriminants are 1-5. -/
def UartPacketType.tryFromPrimitive : ℕ → Option UartPacketType
  | 1 => some .Cmd
  | 2 => some .Acl
  | 3 => some .Sco
  | 4 => some .Evt
  | 5 => some .Iso
  | _ => none

/-- `enum UartData` (src/lib.rs:288-292). -/
inductive UartData where
  | Command (cmd : Command)
  | Todos
deriving DecidableEq

/-- `parse_uart_packet` (src/lib.rs:295-311).  The `&mut Packet` argument
is modelled by returning the packet's state after the call alongside the
result; a panic inside `Command::from` (buffer after the type byte shorter
than 3 bytes) is modelled as a `none` result.  Empty data gives
`UartData::Todos`; an unknown first byte gives the invalid-data error; type
1 delegates the tail of the buffer to `Command::from`; types 2-5 give
`UartData::Todos`. -/
def parse_uart_packet (p : Packet) : Option (Except IOErr UartData) × Packet :=
  match p.data with
  | [] => (some (.ok .Todos), p)
  | tp :: rest =>
    match UartPacketType.tryFromPrimitive tp with
    | none => (some (.error (.invalidData "invalid packet type")), p)
    | some .Cmd =>
      match Command.fromData rest with
      | none => (none, p)
      | some (cmd, rest1) =>
        (some (.ok (.Command cmd)), { p with data := tp :: rest1 })
    | some _ => (some (.ok .Todos), p)

/-! Reader lemmas on concatenated and short inputs. -/

theorem readExact_append {n : ℕ} {b : List ℕ} (r : List ℕ) (h : b.length = n) :
    readExact n (b ++ r) = .ok (b, r) := by
  subst h
  unfold readExact
  rw [if_pos (by simp), List.take_left, List.drop_left]

theorem readU32be_append {b : List ℕ} (r : List ℕ) (h : b.length = 4) :
    readU32be (b ++ r) = .ok (beVal b, r) := by
  unfold readU32be
  rw [readExact_append r h]

theorem readI64be_append {b : List ℕ} (r : List ℕ) (h : b.length = 8) :
    readI64be (b ++ r) = .ok (i64ofBe (beVal b), r) := by
  unfold readI64be
  rw [readExact_append r h]

theorem readU32be_of_le {s : List ℕ} (h : 4 ≤ s.length) :
    readU32be s = .ok (beVal (s.take 4), s.drop 4) := by
  unfold readU32be
  rw [readExact_of_le h]

theorem readU32be_short {s : List ℕ} (h : s.length < 4) :
    readU32be s = .error .unexpectedEof := by
  unfold readU32be readExact
  rw [if_neg (by omega)]

theorem descParse_short {s : List ℕ} (h : s.length < 4) :
    PacketDescription.parse s = .error .unexpectedEof := by
  unfold PacketDescription.parse
  rw [readU32be_short h]

theorem packetParse_short {s : List ℕ} (h : s.length < 4) :
    Packet.parse s = .error .unexpectedEof := by
  unfold Packet.parse
  rw [descParse_short h]

/-! Unfolding equations of the record loop and its totality. -/

theorem parseRecords_cons {s : List ℕ} {p : Packet} {rest : List ℕ}
    (h : Packet.parse s = .ok (p, rest)) :
    parseRecords s = (parseRecords rest).map (p :: ·) := by
  conv_lhs => unfold parseRecords
  split
  · next p' rest' heq =>
    rw [h] at heq
    injection heq with heq
    injection heq with h1 h2
    subst h1 h2
    cases parseRecords rest <;> rfl
  · next heq => rw [h] at heq; exact absurd heq (by simp)
  · next e heq hne => rw [h] at hne; exact absurd hne (by simp)

theorem parseRecords_eof {s : List ℕ} (h : Packet.parse s = .error .unexpectedEof) :
    parseRecords s = .ok [] := by
  conv_lhs => unfold parseRecords
  split
  · next p' rest' heq => rw [h] at heq; exact absurd heq (by simp)
  · rfl
  · next e heq hne =>
    rw [h] at hne
    injection hne with hne
    exact absurd hne.symm heq

theorem parseRecords_abort {s : List ℕ} {e : IOErr} (h : Packet.parse s = .error e)
    (hne : e ≠ .unexpectedEof) : parseRecords s = .error e := by
  conv_lhs => unfold parseRecords
  split
  · next p' rest' heq => rw [h] at heq; exact absurd heq (by simp)
  · next heq =>
    rw [h] at heq
    injection heq with heq
    exact absurd heq hne
  · next e' hne' heq =>
    rw [h] at heq
    injection heq with heq
    rw [heq]

/-- On an in-memory byte source the record loop never fails: every record
parse either succeeds (consuming at least 24 bytes) or stops the loop with
`UnexpectedEof`. -/
theorem parseRecords_total_aux :
    ∀ (n : ℕ) (s : List ℕ), s.length ≤ n → ∃ ps, parseRecords s = .ok ps := by
  intro n
  induction n with
  | zero =>
    intro s hs
    cases hpp : Packet.parse s with
    | error e =>
      have he := Packet.parse_error_eof hpp
      subst he
      exact ⟨[], parseRecords_eof hpp⟩
    | ok pr =>
      obtain ⟨p, rest⟩ := pr
      have hlt := Packet.parse_consumes hpp
      omega
  | succ n ih =>
    intro s hs
    cases hpp : Packet.parse s with
    | error e =>
      have he := Packet.parse_error_eof hpp
      subst he
      exact ⟨[], parseRecords_eof hpp⟩
    | ok pr =>
      obtain ⟨p, rest⟩ := pr
      have hlt := Packet.parse_consumes hpp
      obtain ⟨ps, hps⟩ := ih rest (by omega)
      refine ⟨p :: ps, ?_⟩
      rw [parseRecords_cons hpp, hps]
      rfl

theorem parseRecords_total (s : List ℕ) : ∃ ps, parseRecords s = .ok ps :=
  parseRecords_total_aux s.length s le_rfl

/-! Case analysis of `Header::parse`. -/

theorem headerParse_short {s : List ℕ} (h : s.length < 8) :
    Header.parse s = .error .unexpectedEof := by
  unfold Header.parse readExact
  rw [if_neg (by omega)]

theorem Header.parse_bad_magic {s : List ℕ} (h8 : 8 ≤ s.length)
    (hm : s.take 8 ≠ IDENTIFICATION_PATTERN) :
    Header.parse s = .error (.invalidData "Invalid identification pattern") := by
  unfold Header.parse idPatternTryFrom
  simp [readExact_of_le h8, hm]

theorem Header.parse_trunc_version {s : List ℕ}
    (hm : s.take 8 = IDENTIFICATION_PATTERN) (h12 : s.length < 12) (h8 : 8 ≤ s.length) :
    Header.parse s = .error .unexpectedEof := by
  have hs : (s.drop 8).length < 4 := by simp; omega
  unfold Header.parse idPatternTryFrom
  simp [readExact_of_le h8, hm, readU32be_short hs]

theorem Header.parse_trunc_linktype {s : List ℕ}
    (hm : s.take 8 = IDENTIFICATION_PATTERN) (h12 : 12 ≤ s.length) (h16 : s.length < 16) :
    Header.parse s = .error .unexpectedEof := by
  have h8 : (8 : ℕ) ≤ s.length := by omega
  have hs1 : (4 : ℕ) ≤ (s.drop 8).length := by simp; omega
  have hs2 : (s.drop 12).length < 4 := by simp; omega
  unfold Header.parse idPatternTryFrom
  simp [readExact_of_le h8, hm, readU32be_of_le hs1, List.drop_drop, readU32be_short hs2]

theorem Header.parse_success {s : List ℕ}
    (hm : s.take 8 = IDENTIFICATION_PATTERN) (h16 : 16 ≤ s.length) :
    Header.parse s = .ok ({ version := beVal ((s.drop 8).take 4),
                            datalink_type := DatalinkType.ofU32 (beVal ((s.drop 12).take 4)) },
                          s.drop 16) := by
  have h8 : (8 : ℕ) ≤ s.length := by omega
  have hs1 : (4 : ℕ) ≤ (s.drop 8).length := by simp; omega
  have hs2 : (4 : ℕ) ≤ (s.drop 12).length := by simp; omega
  unfold Header.parse idPatternTryFrom
  simp [readExact_of_le h8, hm, readU32be_of_le hs1, List.drop_drop, readU32be_of_le hs2]

/-! Lemmas on the inner-command decoder and the UART discriminant. -/

theorem Command.fromData_none_iff (buf : List ℕ) :
    Command.fromData buf = none ↔ buf.length < 3 := by
  rcases buf with _ | ⟨b0, _ | ⟨b1, _ | ⟨b2, rest⟩⟩⟩ <;> simp [Command.fromData]

theorem Command.fromData_some {buf : List ℕ} {c : Command} {r : List ℕ}
    (h : Command.fromData buf = some (c, r)) : r = buf := by
  rcases buf with _ | ⟨b0, _ | ⟨b1, _ | ⟨b2, rest⟩⟩⟩ <;> simp [Command.fromData] at h
  exact h.2.symm

theorem UartPacketType.tryFromPrimitive_none_iff (tp : ℕ) :
    UartPacketType.tryFromPrimitive tp = none ↔
      ¬(tp = 1 ∨ tp = 2 ∨ tp = 3 ∨ tp = 4 ∨ tp = 5) := by
  rcases tp with _ | _ | _ | _ | _ | _ | n <;> simp [UartPacketType.tryFromPrimitive]

/-- One-step unfolding of the dispatcher on an empty data buffer. -/
theorem parse_uart_nil (d : PacketDescription) :
    parse_uart_packet ⟨d, []⟩ = (some (.ok .Todos), ⟨d, []⟩) := rfl

/-- One-step unfolding of the dispatcher on a non-empty data buffer. -/
theorem parse_uart_cons (d : PacketDescription) (tp : ℕ) (rest : List ℕ) :
    parse_uart_packet ⟨d, tp :: rest⟩ =
      match UartPacketType.tryFromPrimitive tp with
      | none => (some (.error (.invalidData "invalid packet type")), ⟨d, tp :: rest⟩)
      | some .Cmd =>
        match Command.fromData rest with
        | none => (none, ⟨d, tp :: rest⟩)
        | some (cmd, rest1) => (some (.ok (.Command cmd)), ⟨d, tp :: rest1⟩)
      | some _ => (some (.ok .Todos), ⟨d, tp :: rest⟩) := rfl

/-! The claims. -/

/-- C6: the link-type mapping from a raw u32 code is a total deterministic
function: codes 0-1000 map to `Reserved` carrying the raw code, 1001 to
`UnencapsulatedHci`, 1002 to `Uart`, 1003 to `Bscp`, 1004 to `Serial`, and
every code from 1005 up to `u32::MAX` maps to `Unassigned` carrying the raw
code. -/
theorem C6_datalink_type_mapping (v : ℕ) (hv : v < 4294967296) :
    (v ≤ 1000 → DatalinkType.ofU32 v = .Reserved v) ∧
    DatalinkType.ofU32 1001 = .UnencapsulatedHci ∧
    DatalinkType.ofU32 1002 = .Uart ∧
    DatalinkType.ofU32 1003 = .Bscp ∧
    DatalinkType.ofU32 1004 = .Serial ∧
    (1005 ≤ v → DatalinkType.ofU32 v = .Unassigned v) := by
  refine ⟨?_, by decide, by decide, by decide, by decide, ?_⟩
  · intro h
    simp [DatalinkType.ofU32, h]
  · intro h
    have h1 : ¬ v ≤ 1000 := by omega
    have h2 : v ≠ 1001 := by omega
    have h3 : v ≠ 1002 := by omega
    have h4 : v ≠ 1003 := by omega
    have h5 : v ≠ 1004 := by omega
    simp [DatalinkType.ofU32, h1, h2, h3, h4, h5]

/-- C6 witness: the theorem applied at the concrete codes 1000, 1005 and
`u32::MAX`. -/
theorem C6_witness :
    DatalinkType.ofU32 1000 = .Reserved 1000 ∧
    DatalinkType.ofU32 1005 = .Unassigned 1005 ∧
    DatalinkType.ofU32 4294967295 = .Unassigned 4294967295 :=
  ⟨(C6_datalink_type_mapping 1000 (by norm_num)).1 (by norm_num),
   (C6_datalink_type_mapping 1005 (by norm_num)).2.2.2.2.2 (by norm_num),
   (C6_datalink_type_mapping 4294967295 (by norm_num)).2.2.2.2.2 (by norm_num)⟩

/-- C9: opcode decomposition is pure and infallible: for every 16-bit value
`v`, OCF is `v &&& 0x3FF` (the low 10 bits, `v % 1024`) and OGF is
`v >>> 10` (`v / 1024`), always at most `0x3F`; no validation against the
reserved category `0x3F` is performed. -/
theorem C9_opcode_decomposition (v : ℕ) (hv : v < 65536) :
    Opcode.ocf ⟨v⟩ = v &&& 0x3FF ∧
    Opcode.ocf ⟨v⟩ = v % 1024 ∧
    Opcode.ogf ⟨v⟩ = v >>> 10 ∧
    Opcode.ogf ⟨v⟩ = v / 1024 ∧
    Opcode.ogf ⟨v⟩ ≤ 0x3F := by
  have hdiv : v >>> 10 = v / 1024 := by
    rw [Nat.shiftRight_eq_div_pow]
  have hmod : Opcode.ogf ⟨v⟩ = v / 1024 := by
    unfold Opcode.ogf
    dsimp only
    rw [hdiv, Nat.mod_eq_of_lt (by omega)]
  refine ⟨rfl, ?_, ?_, hmod, ?_⟩
  · show v &&& 1023 = v % 1024
    have h := Nat.and_pow_two_sub_one_eq_mod v 10
    norm_num at h
    exact h
  · rw [hmod, hdiv]
  · rw [hmod]
    omega

/-- C9 witness: the theorem applied at the opcode value 0x0201. -/
theorem C9_witness :
    Opcode.ocf ⟨0x0201⟩ = 0x0201 % 1024 ∧ Opcode.ogf ⟨0x0201⟩ = 0x0201 / 1024 :=
  ⟨(C9_opcode_decomposition 0x0201 (by norm_num)).2.1,
   (C9_opcode_decomposition 0x0201 (by norm_num)).2.2.2.1⟩

/-- C8: record-flags decoding cannot fail: for every flags value, bit 0
decodes to `Sent` when 0 and `Received` when 1, bit 1 decodes to `Data`
when 0 and `CommandOrEvnet` when 1, each depending only on its own bit, and
the `raw` field stored by description parsing is exactly the parsed 32-bit
flags word. -/
theorem C8_flags_decoding (v : ℕ) :
    DirectionFlag.tryFrom v = .ok (if v % 2 = 0 then .Sent else .Received) ∧
    CommandFlag.tryFrom v = .ok (if v / 2 % 2 = 0 then .Data else .CommandOrEvnet) ∧
    (∀ w : ℕ, v % 2 = w % 2 → DirectionFlag.tryFrom v = DirectionFlag.tryFrom w) ∧
    (∀ w : ℕ, v / 2 % 2 = w / 2 % 2 → CommandFlag.tryFrom v = CommandFlag.tryFrom w) ∧
    (∀ (s : List ℕ) (d : PacketDescription) (r : List ℕ),
        PacketDescription.parse s = .ok (d, r) → d.flags.raw = beVal ((s.drop 8).take 4)) := by
  have hdir : ∀ u : ℕ,
      DirectionFlag.tryFrom u = .ok (if u % 2 = 0 then .Sent else .Received) := by
    intro u
    unfold DirectionFlag.tryFrom
    rw [Nat.and_one_is_mod]
    rcases Nat.mod_two_eq_zero_or_one u with h | h <;> rw [h] <;> simp
  have hcmd : ∀ u : ℕ,
      CommandFlag.tryFrom u = .ok (if u / 2 % 2 = 0 then .Data else .CommandOrEvnet) := by
    intro u
    unfold CommandFlag.tryFrom
    rw [Nat.shiftRight_one, Nat.and_one_is_mod]
    rcases Nat.mod_two_eq_zero_or_one (u / 2) with h | h <;> rw [h] <;> simp
  refine ⟨hdir v, hcmd v, ?_, ?_, ?_⟩
  · intro w hw
    rw [hdir v, hdir w, hw]
  · intro w hw
    rw [hcmd v, hcmd w, hw]
  · intro s d r h
    exact (descParse_ok h).2.2.2.1

/-- C8 witness: bit independence applied at the concrete values 6 and 2,
which agree on bits 0 and 1 but differ on bit 2. -/
theorem C8_witness :
    DirectionFlag.tryFrom 6 = DirectionFlag.tryFrom 2 ∧
    CommandFlag.tryFrom 6 = CommandFlag.tryFrom 2 :=
  ⟨(C8_flags_decoding 6).2.2.1 2 (by decide),
   (C8_flags_decoding 6).2.2.2.1 2 (by decide)⟩

/-- C7: for every command buffer of length at least 3, the inner-command
decoder reads bytes 0-1 as the little-endian opcode and byte 2 as the
parameter length, and the parameter slice is the whole tail from offset 3,
never truncated to the declared length; the record payload
`[1, 0x01, 0x02, 0x00]` decodes to a Command with opcode 0x0201, OCF
`0x0201 &&& 0x3FF`, OGF `0x0201 >>> 10`, params_len 0 and empty params. -/
theorem C7_inner_command_decode (b0 b1 b2 : ℕ) (rest : List ℕ) (d : PacketDescription) :
    Command.fromData (b0 :: b1 :: b2 :: rest) =
      some ({ opcode := ⟨u16le b0 b1⟩, params_len := b2, params := rest },
            b0 :: b1 :: b2 :: rest) ∧
    u16le b0 b1 = b0 + 256 * b1 ∧
    (parse_uart_packet { description := d, data := [1, 0x01, 0x02, 0x00] }).1 =
      some (.ok (.Command { opcode := ⟨0x0201⟩, params_len := 0, params := [] })) ∧
    Opcode.ocf ⟨0x0201⟩ = 0x0201 &&& 0x3FF ∧
    Opcode.ogf ⟨0x0201⟩ = 0x0201 >>> 10 :=
  ⟨rfl, rfl, rfl, rfl, rfl⟩

/-- C10: `parse_uart_packet` leaves the packet unchanged in every outcome:
the description and the data bytes after the call equal those before, so
after an invalid-packet-type error the record is still retrievable. -/
theorem C10_uart_preserves_packet (p : Packet) : (parse_uart_packet p).2 = p := by
  obtain ⟨d, data⟩ := p
  rcases data with _ | ⟨tp, rest⟩
  · rfl
  · unfold parse_uart_packet
    cases htp : UartPacketType.tryFromPrimitive tp with
    | none => simp [htp]
    | some ut =>
      cases ut with
      | Cmd =>
        cases hcf : Command.fromData rest with
        | none => simp [htp, hcf]
        | some cr =>
          obtain ⟨cmd, rest1⟩ := cr
          have hbuf := Command.fromData_some hcf
          subst hbuf
          simp [htp, hcf]
      | Acl => simp [htp]
      | Sco => simp [htp]
      | Evt => simp [htp]
      | Iso => simp [htp]

/-- C5: the UART dispatcher returns `Todos` (the Unhandled placeholder) on
an empty data buffer; on a non-empty buffer it returns the invalid-data
"invalid packet type" error exactly when the first byte is not one of the
codes 1-5; for first byte 1 it delegates the tail to the inner-command
decoder and wraps the result in the `Command` variant; for first bytes 2-5
it returns the `Todos` placeholder. -/
theorem C5_uart_dispatch (p : Packet) :
    (p.data = [] → (parse_uart_packet p).1 = some (.ok .Todos)) ∧
    (∀ tp rest, p.data = tp :: rest →
      ((parse_uart_packet p).1 = some (.error (.invalidData "invalid packet type")) ↔
        ¬(tp = 1 ∨ tp = 2 ∨ tp = 3 ∨ tp = 4 ∨ tp = 5))) ∧
    (∀ rest, p.data = 1 :: rest →
      (parse_uart_packet p).1 = (Command.fromData rest).map (fun cr => .ok (.Command cr.1))) ∧
    (∀ tp rest, p.data = tp :: rest → (tp = 2 ∨ tp = 3 ∨ tp = 4 ∨ tp = 5) →
      (parse_uart_packet p).1 = some (.ok .Todos)) := by
  obtain ⟨d, data⟩ := p
  refine ⟨?_, ?_, ?_, ?_⟩
  · intro h
    dsimp only at h
    subst h
    rfl
  · intro tp rest h
    dsimp only at h
    subst h
    rw [parse_uart_cons]
    cases htp : UartPacketType.tryFromPrimitive tp with
    | none =>
      exact iff_of_true rfl ((UartPacketType.tryFromPrimitive_none_iff tp).mp htp)
    | some ut =>
      have hmem : tp = 1 ∨ tp = 2 ∨ tp = 3 ∨ tp = 4 ∨ tp = 5 := by
        by_contra hc
        rw [(UartPacketType.tryFromPrimitive_none_iff tp).mpr hc] at htp
        exact Option.noConfusion htp
      cases ut with
      | Cmd =>
        cases hcf : Command.fromData rest with
        | none => exact iff_of_false (by simp) (fun hn => hn hmem)
        | some cr =>
          obtain ⟨cmd, r1⟩ := cr
          exact iff_of_false (by simp) (fun hn => hn hmem)
      | Acl => exact iff_of_false (by simp) (fun hn => hn hmem)
      | Sco => exact iff_of_false (by simp) (fun hn => hn hmem)
      | Evt => exact iff_of_false (by simp) (fun hn => hn hmem)
      | Iso => exact iff_of_false (by simp) (fun hn => hn hmem)
  · intro rest h
    dsimp only at h
    subst h
    rw [parse_uart_cons]
    have h1 : UartPacketType.tryFromPrimitive 1 = some .Cmd := rfl
    rw [h1]
    cases hcf : Command.fromData rest with
    | none => rfl
    | some cr =>
      obtain ⟨cmd, r1⟩ := cr
      rfl
  · intro tp rest h htp
    dsimp only at h
    subst h
    rcases htp with h2 | h3 | h4 | h5 <;> subst ‹_› <;> rfl

/-- C5 witness: the theorem applied at concrete packets with empty data,
data `[9]` (invalid type) and data `[2]` (ACL). -/
theorem C5_witness :
    (parse_uart_packet ⟨⟨0, 0, ⟨0⟩, 0, 0⟩, []⟩).1 = some (.ok .Todos) ∧
    ((parse_uart_packet ⟨⟨0, 1, ⟨0⟩, 0, 0⟩, [9]⟩).1 =
        some (.error (.invalidData "invalid packet type")) ↔
      ¬(9 = 1 ∨ 9 = 2 ∨ 9 = 3 ∨ 9 = 4 ∨ 9 = 5)) ∧
    (parse_uart_packet ⟨⟨0, 1, ⟨0⟩, 0, 0⟩, [2]⟩).1 = some (.ok .Todos) :=
  ⟨(C5_uart_dispatch ⟨⟨0, 0, ⟨0⟩, 0, 0⟩, []⟩).1 rfl,
   (C5_uart_dispatch ⟨⟨0, 1, ⟨0⟩, 0, 0⟩, [9]⟩).2.1 9 [] rfl,
   (C5_uart_dispatch ⟨⟨0, 1, ⟨0⟩, 0, 0⟩, [2]⟩).2.2.2 2 [] rfl (Or.inl rfl)⟩

/-- C3 counterexample: a record whose data buffer is `[1, 0]` hands the
one-byte buffer `[0]` to the inner-command decoder; the decoder `unwrap`s
its reads, so the call panics (modelled `none`) instead of returning a
recoverable ShortCommandBuffer-style error value, refuting the claim that
a short buffer "fails with a ShortCommandBuffer error that is fatal to
that decode call only". -/
theorem C3_counterexample :
    (parse_uart_packet ⟨⟨1, 2, ⟨0⟩, 0, 0⟩, [1, 0]⟩).1 = none ∧
    ∀ e : IOErr, (parse_uart_packet ⟨⟨1, 2, ⟨0⟩, 0, 0⟩, [1, 0]⟩).1 ≠ some (.error e) := by
  refine ⟨rfl, ?_⟩
  intro e h
  exact Option.noConfusion h

/-- C3 (amended): the inner-command decoder fails if and only if the
buffer is shorter than 3 bytes, but that failure is a panic (an `unwrap`
on an end-of-source read), which aborts the call rather than returning a
recoverable error; for every buffer of length at least 3 it succeeds. -/
theorem C3_short_command_buffer (buf : List ℕ) :
    (Command.fromData buf = none ↔ buf.length < 3) ∧
    (3 ≤ buf.length → ∃ c, Command.fromData buf = some (c, buf)) ∧
    (∀ (p : Packet) rest, p.data = 1 :: rest → rest.length < 3 →
      (parse_uart_packet p).1 = none) := by
  refine ⟨Command.fromData_none_iff buf, ?_, ?_⟩
  · intro h
    rcases buf with _ | ⟨b0, _ | ⟨b1, _ | ⟨b2, rest⟩⟩⟩ <;> simp at h
    exact ⟨_, rfl⟩
  · intro p rest h hlen
    obtain ⟨d, data⟩ := p
    dsimp only at h
    subst h
    rw [parse_uart_cons]
    have h1 : UartPacketType.tryFromPrimitive 1 = some .Cmd := rfl
    rw [h1, (Command.fromData_none_iff rest).mpr hlen]

/-- C3 witness: the amended theorem applied at the buffers `[7, 8, 9]`
(long enough, succeeds) and `[0]` inside a packet (panics). -/
theorem C3_witness :
    (∃ c, Command.fromData [7, 8, 9] = some (c, [7, 8, 9])) ∧
    (parse_uart_packet ⟨⟨9, 9, ⟨0⟩, 0, 0⟩, [1, 0, 0]⟩).1 = none :=
  ⟨(C3_short_command_buffer [7, 8, 9]).2.1 (by decide),
   (C3_short_command_buffer []).2.2 ⟨⟨9, 9, ⟨0⟩, 0, 0⟩, [1, 0, 0]⟩ [0, 0] rfl (by decide)⟩

/-- A 24-byte description block laid out as five big-endian fields parses
to exactly those fields, whatever their values. -/
theorem descParse_append (ol il fl cd ts rest : List ℕ)
    (hol : ol.length = 4) (hil : il.length = 4) (hfl : fl.length = 4)
    (hcd : cd.length = 4) (hts : ts.length = 8) :
    PacketDescription.parse (ol ++ (il ++ (fl ++ (cd ++ (ts ++ rest))))) =
      .ok ({ original_length := beVal ol, included_length := beVal il,
             flags := ⟨beVal fl⟩, cumulative_drops := beVal cd,
             timestamp := i64ofBe (beVal ts) }, rest) := by
  unfold PacketDescription.parse
  simp only [readU32be_append (il ++ (fl ++ (cd ++ (ts ++ rest)))) hol,
             readU32be_append (fl ++ (cd ++ (ts ++ rest))) hil,
             readU32be_append (cd ++ (ts ++ rest)) hfl,
             readU32be_append (ts ++ rest) hcd,
             readI64be_append rest hts]

/-- A description block followed by exactly `included_length` data bytes
parses to a record holding those bytes, with no validation of the
original/included pair. -/
theorem packetParse_append (ol il fl cd ts data rest : List ℕ)
    (hol : ol.length = 4) (hil : il.length = 4) (hfl : fl.length = 4)
    (hcd : cd.length = 4) (hts : ts.length = 8) (hdata : data.length = beVal il) :
    Packet.parse (ol ++ (il ++ (fl ++ (cd ++ (ts ++ (data ++ rest)))))) =
      .ok ({ description := { original_length := beVal ol, included_length := beVal il,
                              flags := ⟨beVal fl⟩, cumulative_drops := beVal cd,
                              timestamp := i64ofBe (beVal ts) },
             data := data }, rest) := by
  unfold Packet.parse
  simp only [descParse_append ol il fl cd ts (data ++ rest) hol hil hfl hcd hts,
             readExact_append rest hdata]

/-- C4: record parsing consumes exactly a 24-byte big-endian description
block followed by exactly `included_length` data bytes; on success the data
buffer length equals the parsed `included_length`, the remaining input
starts `24 + included_length` bytes in, and any original/included pair is
accepted without validation. -/
theorem C4_record_parse (s : List ℕ) (p : Packet) (r : List ℕ) :
    (Packet.parse s = .ok (p, r) →
      24 + p.description.included_length ≤ s.length ∧
      p.description.original_length = beVal (s.take 4) ∧
      p.description.included_length = beVal ((s.drop 4).take 4) ∧
      p.description.flags.raw = beVal ((s.drop 8).take 4) ∧
      p.description.cumulative_drops = beVal ((s.drop 12).take 4) ∧
      p.description.timestamp = i64ofBe (beVal ((s.drop 16).take 8)) ∧
      p.data = (s.drop 24).take p.description.included_length ∧
      p.data.length = p.description.included_length ∧
      r = s.drop (24 + p.description.included_length)) ∧
    (∀ ol il fl cd ts data rest : List ℕ,
      ol.length = 4 → il.length = 4 → fl.length = 4 → cd.length = 4 → ts.length = 8 →
      data.length = beVal il →
      Packet.parse (ol ++ (il ++ (fl ++ (cd ++ (ts ++ (data ++ rest)))))) =
        .ok ({ description := { original_length := beVal ol, included_length := beVal il,
                                flags := ⟨beVal fl⟩, cumulative_drops := beVal cd,
                                timestamp := i64ofBe (beVal ts) },
               data := data }, rest)) := by
  constructor
  · intro h
    obtain ⟨hle, hdesc, hdata, hlen, hr⟩ := packetParse_ok h
    obtain ⟨_, ho, hi, hf, hc, ht, _⟩ := descParse_ok hdesc
    exact ⟨hle, ho, hi, hf, hc, ht, hdata, hlen, hr⟩
  · intro ol il fl cd ts data rest hol hil hfl hcd hts hdata
    exact packetParse_append ol il fl cd ts data rest hol hil hfl hcd hts hdata

/-- C4 witness: the theorem applied to a concrete record whose
included_length (2) differs from its original_length (1), which is
accepted, followed by one extra byte. -/
theorem C4_witness :
    Packet.parse ([0, 0, 0, 1] ++ ([0, 0, 0, 2] ++ ([0, 0, 0, 0] ++ ([0, 0, 0, 0] ++
        ([0, 0, 0, 0, 0, 0, 0, 0] ++ ([7, 8] ++ [9])))))) =
      .ok ({ description := { original_length := 1, included_length := 2, flags := ⟨0⟩,
                              cumulative_drops := 0, timestamp := 0 },
             data := [7, 8] }, [9]) :=
  (C4_record_parse [] ⟨⟨0, 0, ⟨0⟩, 0, 0⟩, []⟩ []).2
    [0, 0, 0, 1] [0, 0, 0, 2] [0, 0, 0, 0] [0, 0, 0, 0] [0, 0, 0, 0, 0, 0, 0, 0] [7, 8] [9]
    rfl rfl rfl rfl rfl (by decide)

/-- C2 counterexample: a 9-byte source of zeros has fewer than 16 bytes
available, yet header parsing returns the invalid-data MalformedHeader
error (the magic check fires before the version read), not the Truncated
end-of-source error the claim requires for every source shorter than 16
bytes. -/
theorem C2_counterexample :
    (List.replicate 9 (0 : ℕ)).length < 16 ∧
    Header.parse (List.replicate 9 (0 : ℕ)) =
      .error (.invalidData "Invalid identification pattern") ∧
    Header.parse (List.replicate 9 (0 : ℕ)) ≠ .error .unexpectedEof := by
  have h : Header.parse (List.replicate 9 (0 : ℕ)) =
      .error (.invalidData "Invalid identification pattern") := rfl
  refine ⟨by norm_num, h, ?_⟩
  rw [h]
  simp

/-- C2 (amended): header parsing consumes 16 bytes and fails exactly in
two cases: MalformedHeader iff at least 8 bytes are available and the
first 8 differ from the magic; Truncated iff the source is shorter than 8
bytes (including the empty source, a hard failure) or starts with the
valid magic but is shorter than 16 bytes — a magic mismatch takes
precedence over truncation once 8 bytes are readable.  For every source
starting with the magic and at least 8 more bytes, parsing succeeds and
version and raw link-type are the big-endian u32 values of bytes 8-11 and
12-15. -/
theorem C2_header_parse (s : List ℕ) :
    (Header.parse s = .error (.invalidData "Invalid identification pattern") ↔
      8 ≤ s.length ∧ s.take 8 ≠ IDENTIFICATION_PATTERN) ∧
    (Header.parse s = .error .unexpectedEof ↔
      s.length < 8 ∨ (s.take 8 = IDENTIFICATION_PATTERN ∧ s.length < 16)) ∧
    (s.take 8 = IDENTIFICATION_PATTERN → 16 ≤ s.length →
      Header.parse s = .ok ({ version := beVal ((s.drop 8).take 4),
                              datalink_type := DatalinkType.ofU32 (beVal ((s.drop 12).take 4)) },
                            s.drop 16)) := by
  refine ⟨⟨?_, ?_⟩, ⟨?_, ?_⟩, fun hm h16 => Header.parse_success hm h16⟩
  · intro h
    by_cases h8 : 8 ≤ s.length
    · by_cases hm : s.take 8 = IDENTIFICATION_PATTERN
      · exfalso
        by_cases h16 : 16 ≤ s.length
        · rw [Header.parse_success hm h16] at h
          simp at h
        · by_cases h12 : 12 ≤ s.length
          · rw [Header.parse_trunc_linktype hm h12 (by omega)] at h
            simp at h
          · rw [Header.parse_trunc_version hm (by omega) h8] at h
            simp at h
      · exact ⟨h8, hm⟩
    · rw [headerParse_short (by omega)] at h
      simp at h
  · rintro ⟨h8, hm⟩
    exact Header.parse_bad_magic h8 hm
  · intro h
    by_cases h8 : 8 ≤ s.length
    · by_cases hm : s.take 8 = IDENTIFICATION_PATTERN
      · right
        refine ⟨hm, ?_⟩
        by_contra h16
        rw [Header.parse_success hm (by omega)] at h
        simp at h
      · rw [Header.parse_bad_magic h8 hm] at h
        simp at h
    · left
      omega
  · rintro (h8 | ⟨hm, h16⟩)
    · exact headerParse_short h8
    · have h8 : 8 ≤ s.length := by
        have hlen : (s.take 8).length = 8 := by rw [hm]; rfl
        simp at hlen
        omega
      by_cases h12 : 12 ≤ s.length
      · exact Header.parse_trunc_linktype hm h12 h16
      · exact Header.parse_trunc_version hm (by omega) h8

/-- C2 witness: the amended theorem's success case applied to a concrete
16-byte header with version 7 and link-type code 1002 (UART). -/
theorem C2_witness :
    Header.parse (IDENTIFICATION_PATTERN ++ ([0, 0, 0, 7] ++ [0, 0, 3, 234])) =
      .ok ({ version := 7, datalink_type := .Uart }, []) :=
  (C2_header_parse (IDENTIFICATION_PATTERN ++ ([0, 0, 0, 7] ++ [0, 0, 3, 234]))).2.2
    (by decide) (by decide)

/-- A byte source laid out as magic, 4 version bytes, 4 link-type bytes and
a remainder parses to the corresponding header, leaving the remainder. -/
theorem headerParse_append (vb lb r : List ℕ) (hvb : vb.length = 4) (hlb : lb.length = 4) :
    Header.parse (IDENTIFICATION_PATTERN ++ (vb ++ (lb ++ r))) =
      .ok ({ version := beVal vb, datalink_type := DatalinkType.ofU32 (beVal lb) }, r) := by
  have hid : idPatternTryFrom IDENTIFICATION_PATTERN = .ok () := rfl
  unfold Header.parse
  simp only [readExact_append (vb ++ (lb ++ r))
      (show IDENTIFICATION_PATTERN.length = 8 from rfl),
    hid, readU32be_append (lb ++ r) hvb, readU32be_append r hlb]

/-- C1: with an in-memory byte source, once the 16-byte header parses the
whole parse succeeds: the loop appends each successfully parsed record in
order, stops with success when a record parse fails with end-of-source,
and would surface any other record-parse error as the overall result; a
valid header followed by zero bytes yields an empty record sequence, and a
valid header plus one complete record plus 3 trailing bytes yields exactly
that one record. -/
theorem C1_btsnoop_parse (s : List ℕ) :
    (∀ hdr rest, Header.parse s = .ok (hdr, rest) →
      ∃ ps, parseRecords rest = .ok ps ∧
        Btsnoop.parse s = .ok { header := hdr, packets := ps }) ∧
    (∀ p rest, Packet.parse s = .ok (p, rest) →
      parseRecords s = (parseRecords rest).map (fun ps => p :: ps)) ∧
    (Packet.parse s = .error .unexpectedEof → parseRecords s = .ok []) ∧
    (∀ e, Packet.parse s = .error e → e ≠ .unexpectedEof → parseRecords s = .error e) ∧
    (∀ vb lb : List ℕ, vb.length = 4 → lb.length = 4 →
      s = IDENTIFICATION_PATTERN ++ (vb ++ (lb ++ [])) →
      Btsnoop.parse s = .ok { header := { version := beVal vb,
                                          datalink_type := DatalinkType.ofU32 (beVal lb) },
                              packets := [] }) ∧
    (∀ vb lb ol il fl cd ts data trail : List ℕ,
      vb.length = 4 → lb.length = 4 → ol.length = 4 → il.length = 4 → fl.length = 4 →
      cd.length = 4 → ts.length = 8 → data.length = beVal il → trail.length = 3 →
      s = IDENTIFICATION_PATTERN ++
            (vb ++ (lb ++ (ol ++ (il ++ (fl ++ (cd ++ (ts ++ (data ++ trail)))))))) →
      Btsnoop.parse s = .ok { header := { version := beVal vb,
                                          datalink_type := DatalinkType.ofU32 (beVal lb) },
                              packets := [{ description :=
                                              { original_length := beVal ol,
                                                included_length := beVal il,
                                                flags := ⟨beVal fl⟩,
                                                cumulative_drops := beVal cd,
                                                timestamp := i64ofBe (beVal ts) },
                                            data := data }] }) := by
  have hnil : parseRecords [] = .ok [] := parseRecords_eof rfl
  refine ⟨?_, ?_, parseRecords_eof, fun e h hne => parseRecords_abort h hne, ?_, ?_⟩
  · intro hdr rest hh
    obtain ⟨ps, hps⟩ := parseRecords_total rest
    refine ⟨ps, hps, ?_⟩
    unfold Btsnoop.parse
    simp only [hh, hps]
  · intro p rest h
    exact parseRecords_cons h
  · intro vb lb hvb hlb hs
    subst hs
    unfold Btsnoop.parse
    simp only [headerParse_append vb lb [] hvb hlb, hnil]
  · intro vb lb ol il fl cd ts data trail hvb hlb hol hil hfl hcd hts hdata htrail hs
    subst hs
    have hrec := packetParse_append ol il fl cd ts data trail hol hil hfl hcd hts hdata
    have htrl : parseRecords trail = .ok [] :=
      parseRecords_eof (packetParse_short (by omega))
    have hloop : parseRecords (ol ++ (il ++ (fl ++ (cd ++ (ts ++ (data ++ trail)))))) =
        .ok [{ description := { original_length := beVal ol, included_length := beVal il,
                                flags := ⟨beVal fl⟩, cumulative_drops := beVal cd,
                                timestamp := i64ofBe (beVal ts) },
               data := data }] := by
      rw [parseRecords_cons hrec, htrl]
      rfl
    unfold Btsnoop.parse
    simp only [headerParse_append vb lb
        (ol ++ (il ++ (fl ++ (cd ++ (ts ++ (data ++ trail)))))) hvb hlb,
      hloop]

/-- C1 witness: the empty-record and one-record conjuncts applied to
concrete byte sources: a bare valid header, and a valid header plus one
complete 26-byte record (included_length 2) plus 3 trailing bytes. -/
theorem C1_witness :
    Btsnoop.parse (IDENTIFICATION_PATTERN ++ ([0, 0, 0, 1] ++ ([0, 0, 3, 234] ++ []))) =
      .ok { header := { version := 1, datalink_type := .Uart }, packets := [] } ∧
    Btsnoop.parse (IDENTIFICATION_PATTERN ++
        ([0, 0, 0, 1] ++ ([0, 0, 3, 234] ++ ([0, 0, 0, 2] ++ ([0, 0, 0, 2] ++ ([0, 0, 0, 0] ++
          ([0, 0, 0, 0] ++ ([0, 0, 0, 0, 0, 0, 0, 0] ++ ([9, 9] ++ [7, 7, 7]))))))))) =
      .ok { header := { version := 1, datalink_type := .Uart },
            packets := [{ description := { original_length := 2, included_length := 2,
                                           flags := ⟨0⟩, cumulative_drops := 0,
                                           timestamp := 0 },
                          data := [9, 9] }] } :=
  ⟨(C1_btsnoop_parse (IDENTIFICATION_PATTERN ++ ([0, 0, 0, 1] ++ ([0, 0, 3, 234] ++ [])))
      ).2.2.2.2.1 [0, 0, 0, 1] [0, 0, 3, 234] rfl rfl rfl,
   (C1_btsnoop_parse (IDENTIFICATION_PATTERN ++
        ([0, 0, 0, 1] ++ ([0, 0, 3, 234] ++ ([0, 0, 0, 2] ++ ([0, 0, 0, 2] ++ ([0, 0, 0, 0] ++
          ([0, 0, 0, 0] ++ ([0, 0, 0, 0, 0, 0, 0, 0] ++ ([9, 9] ++ [7, 7, 7])))))))))
      ).2.2.2.2.2 [0, 0, 0, 1] [0, 0, 3, 234] [0, 0, 0, 2] [0, 0, 0, 2] [0, 0, 0, 0]
      [0, 0, 0, 0] [0, 0, 0, 0, 0, 0, 0, 0] [9, 9] [7, 7, 7]
      rfl rfl rfl rfl rfl rfl rfl (by decide) rfl rfl⟩
